import Mathlib

/-!
Verification development for the maestra-live-sdk repository.

The file gives a shallow embedding, in Lean, of the parts of the SDK that
the specification talks about:

* the two client-side resampling routines of the browser demo
  (the stateful AudioWorklet `Resampler.process` and the stateless
  helper function `resample`), embedded over the rationals: exact
  rational arithmetic plays the role of ideal floating point, so
  "equal within floating-point tolerance" is read as rational equality;
* the inbound-message demultiplexer `WebSocketClient._handleMessage`
  together with the helpers `_isAuthenticationError`, `sendAudio`,
  `close` and the connection-timeout timer;
* the stop/teardown paths of `MaestraClient` and of the audio
  capture processors.

Machine integers do not occur in the modelled code paths; sample values
are rationals and counters are natural numbers.  Sample rates are taken
from `ℕ+`: the specification classifies zero or negative rates as an
`InvalidConfiguration` programming error, and for a zero rate the
source loops would not terminate, so positive rates are a precondition
of the embedding, carried in the type.
-/

/-! ## Linear resampler (src/unnamed/part_000)

The AudioWorklet processor keeps `lastSample`, `nextSample` and
`writeIndex` on `this`, and reads the global AudioWorklet frame counter
`currentFrame`, which advances by the block length from one `process`
call to the next.  We carry `currentFrame` in the state and advance it
by one per consumed input sample, which yields the same value
`currentFrame + i` for the i-th sample of a block as the source reads.
-/

structure RState where
  lastSample : ℚ
  nextSample : ℚ
  writeIndex : ℕ
  currentFrame : ℕ
deriving DecidableEq

/-- The linear interpolation expression of the source, written exactly as
the code computes it: `lastSample + (nextSample - lastSample) * (timeDiff / sampleTimeDiff)`
with `timeDiff = writeIndex/toRate - g/fromRate` and `sampleTimeDiff = 1/fromRate`. -/
def interpAt (fr tr : ℕ+) (g w : ℕ) (last next : ℚ) : ℚ :=
  let lowResTime : ℚ := (w : ℚ) / ((tr : ℕ) : ℚ)
  let highResTime : ℚ := (g : ℚ) / ((fr : ℕ) : ℚ)
  let timeDiff : ℚ := lowResTime - highResTime
  let sampleTimeDiff : ℚ := 1 / ((fr : ℕ) : ℚ)
  last + (next - last) * (timeDiff / sampleTimeDiff)

/-- The inner `while (this.writeIndex / toSampleRate < nextHighResTime)` loop of
`Resampler.process` for one input sample at global index `g`: every iteration
advances `writeIndex` by one, skipping ticks that lie before the current
sample time and emitting one interpolated sample for every other tick.
The source also guards `if (sampleTimeDiff === 0) continue;`; for a positive
input rate `1 / fromSampleRate` is nonzero, so that guard never fires and is
not reproduced here.  Returns the final `writeIndex` together with the list
of samples written to the output buffer, in order. -/
def tickLoop (fr tr : ℕ+) (g : ℕ) (last next : ℚ) (w : ℕ) : ℕ × List ℚ :=
  if h : (w : ℚ) / ((tr : ℕ) : ℚ) < ((g + 1 : ℕ) : ℚ) / ((fr : ℕ) : ℚ) then
    if (w : ℚ) / ((tr : ℕ) : ℚ) < (g : ℚ) / ((fr : ℕ) : ℚ) then
      -- the source here runs `this.writeIndex++; continue;` without emitting
      tickLoop fr tr g last next (w + 1)
    else
      let rest := tickLoop fr tr g last next (w + 1)
      (rest.1, interpAt fr tr g w last next :: rest.2)
  else (w, [])
termination_by (g + 1) * (tr : ℕ) - w * (fr : ℕ)
decreasing_by
  all_goals
    have hfr : (0 : ℚ) < ((fr : ℕ) : ℚ) := by exact_mod_cast fr.pos
    have htr : (0 : ℚ) < ((tr : ℕ) : ℚ) := by exact_mod_cast tr.pos
    rw [div_lt_div_iff₀ htr hfr] at h
    have hn : w * (fr : ℕ) < (g + 1) * (tr : ℕ) := by exact_mod_cast h
    have hs : (w + 1) * (fr : ℕ) = w * (fr : ℕ) + (fr : ℕ) := by ring
    have hpos : 0 < (fr : ℕ) := fr.pos
    omega

/-- One iteration of the `for (let i = 0; i < input.length; i++)` loop of
`Resampler.process`: shift `lastSample := nextSample; nextSample := input[i]`,
run the inner while loop at `g = currentFrame + i`, and append whatever it
wrote to the output gathered so far. -/
def stepSample (fr tr : ℕ+) (acc : RState × List ℚ) (x : ℚ) : RState × List ℚ :=
  let st := acc.1
  let last := st.nextSample
  let g := st.currentFrame
  let r := tickLoop fr tr g last x st.writeIndex
  ({ lastSample := last, nextSample := x, writeIndex := r.1, currentFrame := g + 1 }, acc.2 ++ r.2)

/-- `Resampler.process` on one input block: fold the per-sample step over the
block.  The returned list is the content of the buffer the worklet posts
(the first `currentWriteIndex` entries of `result`, i.e. all written samples
in order; when nothing was written the worklet posts nothing, which is the
empty list here). -/
def process (fr tr : ℕ+) (st : RState) (input : List ℚ) : RState × List ℚ :=
  input.foldl (stepSample fr tr) (st, [])

/-- Feeding a list of blocks sequentially through one `Resampler` instance,
concatenating the posted outputs. -/
def processBlocks (fr tr : ℕ+) (st : RState) : List (List ℚ) → RState × List ℚ
  | [] => (st, [])
  | b :: bs =>
    let r := process fr tr st b
    let rest := processBlocks fr tr r.1 bs
    (rest.1, r.2 ++ rest.2)

/-! The stateless helper `resample(audioBuffer, fromSampleRate, toSampleRate)`
(src/unnamed/part_000 lines 1009-1043).  All interpolation state is local to
the call; the output array has length `Math.ceil(length * to / from)`,
initialised to zeroes, and the emit branch writes at index `writeIndex`
(a write out of bounds is silently dropped, as on a `Float32Array`). -/

/-- Inner while loop of the stateless `resample`: like `tickLoop` but writing
into the preallocated output array at `writeIndex`. -/
def flatTick (fr tr : ℕ+) (g : ℕ) (last next : ℚ) (w : ℕ) (res : List ℚ) : ℕ × List ℚ :=
  if h : (w : ℚ) / ((tr : ℕ) : ℚ) < ((g + 1 : ℕ) : ℚ) / ((fr : ℕ) : ℚ) then
    if (w : ℚ) / ((tr : ℕ) : ℚ) < (g : ℚ) / ((fr : ℕ) : ℚ) then
      flatTick fr tr g last next (w + 1) res
    else
      flatTick fr tr g last next (w + 1) (res.set w (interpAt fr tr g w last next))
  else (w, res)
termination_by (g + 1) * (tr : ℕ) - w * (fr : ℕ)
decreasing_by
  all_goals
    have hfr : (0 : ℚ) < ((fr : ℕ) : ℚ) := by exact_mod_cast fr.pos
    have htr : (0 : ℚ) < ((tr : ℕ) : ℚ) := by exact_mod_cast tr.pos
    rw [div_lt_div_iff₀ htr hfr] at h
    have hn : w * (fr : ℕ) < (g + 1) * (tr : ℕ) := by exact_mod_cast h
    have hs : (w + 1) * (fr : ℕ) = w * (fr : ℕ) + (fr : ℕ) := by ring
    have hpos : 0 < (fr : ℕ) := fr.pos
    omega

/-- The `for` loop of `resample`, threading `i`, `nextSample`, `writeIndex`
and the output array. -/
def resampleLoop (fr tr : ℕ+) : List ℚ → ℕ → ℚ → ℕ → List ℚ → List ℚ
  | [], _, _, _, res => res
  | x :: xs, i, nextSample, w, res =>
    let last := nextSample
    let r := flatTick fr tr i last x w res
    resampleLoop fr tr xs (i + 1) x r.1 r.2

/-- `resample(audioBuffer, fromSampleRate, toSampleRate)`: identity when the
rates agree, otherwise run the interpolation loop over a fresh zero-filled
output array of length `Math.ceil(length * toRate / fromRate)`. -/
def resample (audioBuffer : List ℚ) (fromSampleRate toSampleRate : ℕ+) : List ℚ :=
  if fromSampleRate = toSampleRate then audioBuffer
  else
    resampleLoop fromSampleRate toSampleRate audioBuffer 0 0 0
      (List.replicate
        ((audioBuffer.length * (toSampleRate : ℕ) + (fromSampleRate : ℕ) - 1) /
          (fromSampleRate : ℕ)) 0)

/-! ## Theorems about the resampler -/

theorem stepSample_out (fr tr : ℕ+) (st : RState) (out : List ℚ) (x : ℚ) :
    stepSample fr tr (st, out) x =
      ((stepSample fr tr (st, []) x).1, out ++ (stepSample fr tr (st, []) x).2) := by
  simp [stepSample]

theorem foldl_stepSample_out (fr tr : ℕ+) (xs : List ℚ) :
    ∀ (st : RState) (out : List ℚ),
      xs.foldl (stepSample fr tr) (st, out) =
        ((xs.foldl (stepSample fr tr) (st, [])).1,
          out ++ (xs.foldl (stepSample fr tr) (st, [])).2) := by
  induction xs with
  | nil => intro st out; simp
  | cons x xs ih =>
    intro st out
    simp only [List.foldl_cons]
    rw [stepSample_out]
    rcases h : stepSample fr tr (st, []) x with ⟨s1, e⟩
    rw [ih s1 (out ++ e), ih s1 e, List.append_assoc]

theorem process_append (fr tr : ℕ+) (st : RState) (xs ys : List ℚ) :
    process fr tr st (xs ++ ys) =
      ((process fr tr (process fr tr st xs).1 ys).1,
        (process fr tr st xs).2 ++ (process fr tr (process fr tr st xs).1 ys).2) := by
  unfold process
  rw [List.foldl_append]
  rcases h : xs.foldl (stepSample fr tr) (st, []) with ⟨s1, o1⟩
  rw [foldl_stepSample_out fr tr ys s1 o1]

/-- C1 (amended): the stateful AudioWorklet resampler satisfies the
continuity invariant — feeding a signal through `Resampler.process` as a
sequence of blocks produces exactly the same final state and the same
concatenated output sample sequence as feeding it as one single block,
for every pair of rates and every starting state. -/
theorem process_block_split_invariant (fr tr : ℕ+) (st : RState) (blocks : List (List ℚ)) :
    processBlocks fr tr st blocks = process fr tr st blocks.flatten := by
  induction blocks generalizing st with
  | nil => simp [processBlocks, process]
  | cons b bs ih =>
    simp only [processBlocks, List.flatten_cons]
    rw [process_append, ih]

/-- C1 (counterexample): the claim as stated also covers the stateless
helper `resample`, and for it block splitting changes the output.  With
input rate 8000 and output rate 16000, the two-sample signal 1, 1 resampled
in one block gives 0, 1/2, 1, 1, while feeding it as two one-sample blocks
gives 0, 1/2, 0, 1/2 — the interpolation state and the output timeline
restart at every call. -/
theorem resample_block_split_fails :
    resample [1, 1] 8000 16000 ≠
      resample [1] 8000 16000 ++ resample [1] 8000 16000 := by
  have t0 : flatTick 8000 16000 0 0 1 0 [0, 0, 0, 0] = (2, [0, 1 / 2, 0, 0]) := by
    rw [flatTick]; norm_num [interpAt]
    rw [flatTick]; norm_num [interpAt]
    rw [flatTick]; norm_num
  have t1 : flatTick 8000 16000 1 1 1 2 [0, 1 / 2, 0, 0] = (4, [0, 1 / 2, 1, 1]) := by
    rw [flatTick]; norm_num [interpAt]
    rw [flatTick]; norm_num [interpAt]
    rw [flatTick]; norm_num
  have t2 : flatTick 8000 16000 0 0 1 0 [0, 0] = (2, [0, 1 / 2]) := by
    rw [flatTick]; norm_num [interpAt]
    rw [flatTick]; norm_num [interpAt]
    rw [flatTick]; norm_num
  have h1 : resample [1, 1] 8000 16000 = [0, 1 / 2, 1, 1] := by
    rw [resample, if_neg (by decide)]
    have hlen : (List.length [(1 : ℚ), 1] * ((16000 : ℕ+) : ℕ) + ((8000 : ℕ+) : ℕ) - 1) /
        ((8000 : ℕ+) : ℕ) = 4 := by decide
    rw [hlen]
    rw [show List.replicate 4 (0 : ℚ) = [0, 0, 0, 0] by rfl]
    rw [resampleLoop, t0, resampleLoop, t1, resampleLoop]
  have h2 : resample [1] 8000 16000 = [0, 1 / 2] := by
    rw [resample, if_neg (by decide)]
    have hlen : (List.length [(1 : ℚ)] * ((16000 : ℕ+) : ℕ) + ((8000 : ℕ+) : ℕ) - 1) /
        ((8000 : ℕ+) : ℕ) = 2 := by decide
    rw [hlen]
    rw [show List.replicate 2 (0 : ℚ) = [0, 0] by rfl]
    rw [resampleLoop, t2, resampleLoop]
  rw [h1, h2]
  norm_num

/-! ## WebSocketClient (src/unnamed/part_006)

The inbound protocol message is a JSON record; the fields the handler
reads are embedded as options (`none` = field absent).  JavaScript
truthiness on string fields (absent, null or empty means falsy) is
`truthy`; an array or object field is truthy whenever present.  The
`completed` flag of a segment may hold any JSON value, since the code
compares it with `=== false` strictly; the small `JsonVal` type stands
for the values such a field can carry. -/

inductive JsonVal where
  | bool : Bool → JsonVal
  | str : String → JsonVal
  | num : Int → JsonVal
  | null
deriving DecidableEq

structure Segment where
  text : String
  completed : Option JsonVal := none
deriving DecidableEq

structure InMsg where
  uid : Option String := none
  status : Option String := none
  error : Option String := none
  message : Option String := none
  status_code : Option Int := none
  language : Option String := none
  segments : Option (List Segment) := none
  translated_segments : Option (List Segment) := none
  segment : Option Segment := none
  translated_segment : Option Segment := none
  type : Option String := none
  audio_url : Option String := none
deriving DecidableEq

/-- WebSocket ready states. -/
inductive SockReady where
  | connecting
  | opn
  | closing
  | closed
deriving DecidableEq

/-- The mutable fields of `WebSocketClient` that the modelled methods read
or write.  `sourceLanguage = none` models the null value the client holds
when constructed through `MaestraClient` with no language configured
(the `=== null` test of the language branch).  `timerPending` models
`connectionTimer !== null`, `socket` models `this.socket` and its ready
state. -/
structure WSClientState where
  uuid : String
  sourceLanguage : Option String := none
  isServerReady : Bool := false
  timerPending : Bool := false
  socket : Option SockReady := none
deriving DecidableEq

/-- JavaScript truthiness of a possibly absent string field. -/
def truthy : Option String → Bool
  | none => false
  | some s => !s.isEmpty

/-- JavaScript `a || b` for a possibly absent string `a` and a fallback. -/
def strOr (a : Option String) (b : String) : String :=
  match a with
  | some s => if s.isEmpty then b else s
  | none => b

/-- ASCII `toLowerCase` over the characters of a string (the protocol
keywords and error texts are ASCII). -/
def lowerStr (s : String) : String :=
  String.mk (s.data.map Char.toLower)

/-- Character-list version of `startsWith`, used to express
`String.includes`. -/
def charListLeads : List Char → List Char → Bool
  | [], _ => true
  | _ :: _, [] => false
  | p :: ps, c :: cs => p == c && charListLeads ps cs

/-- `s.includes(k)` on strings: some suffix of `s` starts with `k`. -/
def containsKeyword (s k : String) : Bool :=
  (List.range (s.length + 1)).any (fun i => charListLeads k.toList (s.toList.drop i))

/-- The keyword list of `_isAuthenticationError`, verbatim. -/
def authKeywords : List String :=
  ["unauthorized", "authentication", "invalid api key", "api key",
   "forbidden", "access denied", "invalid token", "invalid key",
   "authentication failed", "invalid credentials", "token expired",
   "key not found", "permission denied"]

/-- The message text of the authentication-class connection error. -/
def authErrorText : String :=
  "Connection failed: Authentication error. Please check your API key and ensure it is valid and has the necessary permissions."

/-- `_isAuthenticationError(errorMessage, data)` (lines 223-243). -/
def isAuthenticationError (errorMessage : String) (d : InMsg) : Bool :=
  if errorMessage.isEmpty then false
  else
    let message := lowerStr errorMessage
    let isAuthError := authKeywords.any (fun k => containsKeyword message k)
    if d.status_code = some 401 ∨ d.status_code = some 403 then true
    else isAuthError

/-- The guard `data.uid && data.uid !== this.uuid` of `_handleMessage`. -/
def uidMismatch (uuid : String) (d : InMsg) : Bool :=
  truthy d.uid && d.uid != some uuid

/-- The guard `data.status === "WAIT"`. -/
def isWaitMsg (d : InMsg) : Bool := d.status == some "WAIT"

/-- The guard `data.status === "ERROR" || data.error`. -/
def isErrorMsg (d : InMsg) : Bool := d.status == some "ERROR" || truthy d.error

/-- The guard `this.sourceLanguage === null && data.language`. -/
def langDetect (st : WSClientState) (d : InMsg) : Bool :=
  st.sourceLanguage == none && truthy d.language

/-- `close()` (lines 336-348): clear the pending timer, close the socket
when one exists, drop the server-ready flag. -/
def closeClient (st : WSClientState) : WSClientState :=
  { st with timerPending := false,
            socket := st.socket.map (fun _ => SockReady.closed),
            isServerReady := false }

/-- The typed events the client emits (each constructor is one event
channel of the underlying event emitter). -/
inductive WSEvent where
  | binaryData
  | errorEvent : String → WSEvent
  | ready
  | languageDetected : String → WSEvent
  | disconnect
  | segments : List Segment → WSEvent
  | translatedSegments : List Segment → WSEvent
  | finalizedSegment : Segment → WSEvent
  | finalizedTranslatedSegment : Segment → WSEvent
  | finalizedSegmentAudioURL : Option String → WSEvent
  | transcription
deriving DecidableEq

/-- `data.segments.filter(segment => segment.completed === false)`. -/
def currentInterim (segs : List Segment) : List Segment :=
  segs.filter (fun s => s.completed == some (JsonVal.bool false))

/-- The `data.segments` branch (lines 158-165): emit the filtered interim
segments when any survive the filter. -/
def segmentsEvents (d : InMsg) : List WSEvent :=
  match d.segments with
  | some segs =>
    if 0 < (currentInterim segs).length then [WSEvent.segments (currentInterim segs)] else []
  | none => []

/-- The `data.translated_segments` branch (lines 168-170). -/
def translatedEvents (d : InMsg) : List WSEvent :=
  match d.translated_segments with
  | some ts => [WSEvent.translatedSegments ts]
  | none => []

/-- The `data.segment` branch (lines 173-175). -/
def finalizedEvents (d : InMsg) : List WSEvent :=
  match d.segment with
  | some s => [WSEvent.finalizedSegment s]
  | none => []

/-- The `data.translated_segment` branch (lines 178-180). -/
def finalizedTranslatedEvents (d : InMsg) : List WSEvent :=
  match d.translated_segment with
  | some s => [WSEvent.finalizedTranslatedSegment s]
  | none => []

/-- The `data.type === "audio"` branch (lines 182-184). -/
def audioEvents (d : InMsg) : List WSEvent :=
  if d.type == some "audio" then [WSEvent.finalizedSegmentAudioURL d.audio_url] else []

/-- `_handleMessage` on a parsed JSON message (lines 88-191): the guard
chain in source order, returning the updated client state together with
the events emitted during this call, in emission order.  The final
fall-through gathers the segment branches and always ends with the
catch-all `transcription` event. -/
def handleMessage (st : WSClientState) (d : InMsg) : WSClientState × List WSEvent :=
  if uidMismatch st.uuid d then (st, [])
  else if isWaitMsg d then
    (st, [WSEvent.errorEvent (d.message.getD "")])
  else if isErrorMsg d then
    let errorMessage := strOr d.message (strOr d.error "Unknown error")
    let st2 := { st with timerPending := false }
    if isAuthenticationError errorMessage d then
      (st2, [WSEvent.errorEvent authErrorText])
    else
      (st2, [WSEvent.errorEvent ("Connection failed: " ++ errorMessage)])
  else if st.isServerReady = false then
    ({ st with isServerReady := true, timerPending := false }, [WSEvent.ready])
  else if langDetect st d then
    ({ st with sourceLanguage := d.language }, [WSEvent.languageDetected (d.language.getD "")])
  else if d.message = some "DISCONNECT" then
    (closeClient st, [WSEvent.disconnect])
  else
    (st, segmentsEvents d ++ translatedEvents d ++ finalizedEvents d ++
      finalizedTranslatedEvents d ++ audioEvents d ++ [WSEvent.transcription])

/-- One inbound transport frame: binary data, unparseable text (the JSON
parse throws and the catch block reports the parse error), or a parsed
JSON record. -/
inductive Frame where
  | binary
  | malformed : String → Frame
  | json : InMsg → Frame
deriving DecidableEq

/-- `_handleMessage` on a raw frame: binary frames are re-emitted as
`binaryData`, a failed parse lands in the catch block and emits the parse
error, a parsed record goes through the guard chain. -/
def handleFrame (st : WSClientState) (f : Frame) : WSClientState × List WSEvent :=
  match f with
  | Frame.binary => (st, [WSEvent.binaryData])
  | Frame.malformed e => (st, [WSEvent.errorEvent e])
  | Frame.json d => handleMessage st d

/-- Deliver a sequence of frames to the handler in socket order,
concatenating the emitted events. -/
def runFrames (st : WSClientState) : List Frame → WSClientState × List WSEvent
  | [] => (st, [])
  | f :: fs =>
    let r := handleFrame st f
    let rest := runFrames r.1 fs
    (rest.1, r.2 ++ rest.2)

/-- A frame that, arriving while the ready flag is down, makes the handler
take the server-ready branch: a parsed message that passes the uid filter
and is neither a WAIT status nor a hard error. -/
def qualifies (uuid : String) (f : Frame) : Bool :=
  match f with
  | Frame.json d => !uidMismatch uuid d && !isWaitMsg d && !isErrorMsg d
  | _ => false

/-- `sendAudio(audioData)` (lines 327-331): transmit only when a socket
exists, it is OPEN, and the server is ready; the method assigns no field,
so the state component of the result is the input state. -/
def sendAudio (st : WSClientState) (audioData : List ℚ) : WSClientState × Option (List ℚ) :=
  if st.socket == some SockReady.opn && st.isServerReady then (st, some audioData)
  else (st, none)

/-- The message text of the connection-timeout error. -/
def timeoutErrorText : String :=
  "Connection failed: Timeout waiting for server response. This may indicate an invalid API key or server connectivity issues."

/-- The `setTimeout` callback armed in `connect()` (lines 294-302), fused
with the fact that a timer that has fired is no longer pending: when the
ready flag is still down it reports the timeout and runs `close()`. -/
def timerFire (st : WSClientState) : WSClientState × List WSEvent :=
  let st0 := { st with timerPending := false }
  if st0.isServerReady then (st0, [])
  else (closeClient st0, [WSEvent.errorEvent timeoutErrorText])

/-- The `socket.onerror` callback of `connect()` (lines 311-314): it
forwards the transport error and rejects, assigning no client field —
in particular it does not touch the connection timer. -/
def onSocketError (st : WSClientState) (e : String) : WSClientState × List WSEvent :=
  (st, [WSEvent.errorEvent e])

/-! ## MaestraClient and the capture processors

`MaestraClient.stop()` (src/lib/maestra-client.js lines 146-161) stops and
drops the stream processor, closes and drops the websocket client, and
clears the transcribing flag, emitting `transcription-stopped`.  The
capture processors model the boolean shape of their mutable fields: a
field holding an object or process handle becomes the fact that the
handle is non-null.  The three delivery paths to the `onAudioCallback`
sink differ in source: the `StreamInputProcessor` push path is guarded on
`isProcessing && audioStream`; the `FfmpegProcessor` data listener calls
the sink with no guard at all, and its `stop()` only SIGTERMs the decoder
asynchronously, leaving the listener attached to the pipe; and the
`MicrophoneProcessor` transform runs each chunk through the resampler
before the sink, so once `stop()` has nulled the resampler the chunk is
diverted to the error callback instead. -/

inductive ClientEvent where
  | transcriptionStopped
deriving DecidableEq

structure StreamInputProcessorState where
  isProcessing : Bool := false
  audioStream : Bool := false
deriving DecidableEq

/-- `StreamInputProcessor.stop()` (lines 60-66). -/
def StreamInputProcessorState.stop (p : StreamInputProcessorState) : StreamInputProcessorState :=
  let p1 := if p.audioStream then { p with audioStream := false } else p
  { p1 with isProcessing := false }

/-- `StreamInputProcessor.pushAudio(audioChunk)` (lines 50-55): the chunk
reaches the data listener, and so the sink, only when the processor is
processing and the stream exists; otherwise it is dropped. -/
def StreamInputProcessorState.pushAudio (p : StreamInputProcessorState) (chunk : List ℚ) :
    Option (List ℚ) :=
  if p.isProcessing && p.audioStream then some chunk else none

structure FfmpegProcessorState where
  isProcessing : Bool := false
  ffmpegProcess : Bool := false
deriving DecidableEq

/-- `FfmpegProcessor.stop()` (src/unnamed/part_003): kill and drop the
process when one exists, clear the processing flag. -/
def FfmpegProcessorState.stop (p : FfmpegProcessorState) : FfmpegProcessorState :=
  let p1 := if p.ffmpegProcess then { p with ffmpegProcess := false } else p
  { p1 with isProcessing := false }

/-- The `audioStream.on('data', ...)` listener of `FfmpegProcessor`
(src/unnamed/part_003): it calls `onAudioCallback(audioData)` with no
guard — no field of the processor is consulted — and `stop()` only sends
an asynchronous SIGTERM without detaching the listener or clearing the
pipe.  A chunk that reaches the stream is therefore handed to the sink
regardless of the processor state, also after `stop()` has returned. -/
def ffmpegDeliver (_p : FfmpegProcessorState) (chunk : List ℚ) : Option (List ℚ) :=
  some chunk

structure MicrophoneProcessorState where
  isProcessing : Bool := false
  microphone : Bool := false
  resampler : Bool := false
deriving DecidableEq

/-- `MicrophoneProcessor.stop()` (src/unnamed/part_005): stop and drop the
recorder when one exists, destroy and drop the resampler when one exists,
clear the processing flag. -/
def MicrophoneProcessorState.stop (p : MicrophoneProcessorState) : MicrophoneProcessorState :=
  let p1 := if p.microphone then { p with microphone := false } else p
  let p2 := if p1.resampler then { p1 with resampler := false } else p1
  { p2 with isProcessing := false }

/-- The transform callback of `MicrophoneProcessor` (src/unnamed/part_005):
a chunk is first run through `this.resampler.simple` and only then handed
to `onAudioCallback`, inside a try/catch that routes any exception to
`onErrorCallback`.  While the resampler exists the resampled block is
delivered (the external resampler is opaque, so the block stands for its
resampled form); once `stop()` has nulled the resampler the call throws,
the chunk is diverted to the error callback, and no audio block reaches
the sink.  The result pairs the delivered block, if any, with whether the
error callback fired. -/
def micTransform (p : MicrophoneProcessorState) (chunk : List ℚ) : Option (List ℚ) × Bool :=
  if p.resampler then (some chunk, false) else (none, true)

structure MaestraClientState where
  streamProcessor : Option StreamInputProcessorState := none
  websocketClient : Option WSClientState := none
  isTranscribing : Bool := false
deriving DecidableEq

/-- `MaestraClient.stop()` (lines 146-161): stop and drop the processor
when one is held, close and drop the websocket client when one is held,
clear the flag, emit `transcription-stopped`. -/
def MaestraClientState.stop (c : MaestraClientState) : MaestraClientState × List ClientEvent :=
  let c1 := match c.streamProcessor with
    | some _ => { c with streamProcessor := none }
    | none => c
  let c2 := match c1.websocketClient with
    | some _ => { c1 with websocketClient := none }
    | none => c1
  ({ c2 with isTranscribing := false }, [ClientEvent.transcriptionStopped])

/-- The `onAudioCallback` wired by `MaestraClient.transcribe` (lines
123-127): forward the block to `websocketClient.sendAudio` when a client
is held, else drop it.  The result is the block actually transmitted. -/
def clientForwardAudio (c : MaestraClientState) (a : List ℚ) : Option (List ℚ) :=
  match c.websocketClient with
  | some w => (sendAudio w a).2
  | none => none

/-! ## Theorems about audio delivery and teardown -/

/-- C10: `sendAudio` assigns no client state, transmits the block exactly
when a socket exists in the OPEN state and the server-ready flag is set,
and in every other case silently discards the block (it never buffers:
the outcome is either the transmitted block itself or nothing). -/
theorem sendAudio_gates_and_discards (st : WSClientState) (a : List ℚ) :
    (sendAudio st a).1 = st ∧
    ((sendAudio st a).2 = some a ↔
      (st.socket = some SockReady.opn ∧ st.isServerReady = true)) ∧
    ((sendAudio st a).2 = some a ∨ (sendAudio st a).2 = none) := by
  unfold sendAudio
  by_cases h : (st.socket == some SockReady.opn && st.isServerReady) = true
  · rw [if_pos h]
    simp only [Bool.and_eq_true, beq_iff_eq] at h
    simp [h]
  · rw [if_neg h]
    simp only [Bool.and_eq_true, beq_iff_eq] at h
    simp [h]

/-- C8 (code_bug evaluation): the claim demands, for every capture-source
variant, that no sample block reaches the sink after the first `stop()`
has returned.  At the failing input — a processor that was capturing when
`stop()` returned, with one chunk still in flight — the stream-input
push path drops the chunk (its source guard), the client forwarding path
drops it (the websocket client is dropped by `stop()`), and the
microphone transform diverts it to the error callback (null resampler);
but the FFmpeg variant, whose data listener has no guard at all, hands
the chunk to the sink even though `stop()` has completed. -/
theorem ffmpeg_chunk_delivered_after_stop :
    ffmpegDeliver
        (FfmpegProcessorState.stop { isProcessing := true, ffmpegProcess := true }) [1] =
      some [1] ∧
    StreamInputProcessorState.pushAudio
        (StreamInputProcessorState.stop { isProcessing := true, audioStream := true }) [1] =
      none ∧
    micTransform
        (MicrophoneProcessorState.stop
          { isProcessing := true, microphone := true, resampler := true }) [1] =
      (none, true) ∧
    clientForwardAudio
        (MaestraClientState.stop
          { streamProcessor := some { isProcessing := true, audioStream := true },
            websocketClient := some ⟨"u", some "en", true, false, some SockReady.opn⟩,
            isTranscribing := true }).1 [1] =
      none :=
  ⟨rfl, rfl, rfl, rfl⟩

/-! ## Characterizing the fall-through event lists -/

theorem mem_segmentsEvents_iff (d : InMsg) (e : WSEvent) :
    e ∈ segmentsEvents d ↔
      ∃ segs, d.segments = some segs ∧ currentInterim segs ≠ [] ∧
        e = WSEvent.segments (currentInterim segs) := by
  unfold segmentsEvents
  cases h : d.segments with
  | none => simp
  | some segs =>
    by_cases hne : currentInterim segs = []
    · simp [hne]
    · have hlen : 0 < (currentInterim segs).length := List.length_pos.mpr hne
      simp [hlen, hne, eq_comm]

theorem mem_translatedEvents_iff (d : InMsg) (e : WSEvent) :
    e ∈ translatedEvents d ↔
      ∃ ts, d.translated_segments = some ts ∧ e = WSEvent.translatedSegments ts := by
  unfold translatedEvents
  cases h : d.translated_segments <;> simp

theorem mem_finalizedEvents_iff (d : InMsg) (e : WSEvent) :
    e ∈ finalizedEvents d ↔ ∃ s, d.segment = some s ∧ e = WSEvent.finalizedSegment s := by
  unfold finalizedEvents
  cases h : d.segment <;> simp

theorem mem_finalizedTranslatedEvents_iff (d : InMsg) (e : WSEvent) :
    e ∈ finalizedTranslatedEvents d ↔
      ∃ s, d.translated_segment = some s ∧ e = WSEvent.finalizedTranslatedSegment s := by
  unfold finalizedTranslatedEvents
  cases h : d.translated_segment <;> simp

theorem mem_audioEvents_iff (d : InMsg) (e : WSEvent) :
    e ∈ audioEvents d ↔
      (d.type == some "audio") = true ∧ e = WSEvent.finalizedSegmentAudioURL d.audio_url := by
  unfold audioEvents
  by_cases h : (d.type == some "audio") = true <;> simp [h]

/-! ## Claim theorems about message classification -/

/-- C4 (amended): a WAIT status message is forwarded as an event on the
same `error` channel that hard errors use — not thrown — carrying the
message text of the server verbatim, with no `Connection failed` prefix,
and the client state (the pending connection timer included) is left
unchanged. -/
theorem wait_forwarded_on_error_channel (st : WSClientState) (d : InMsg)
    (huid : uidMismatch st.uuid d = false) (hw : isWaitMsg d = true) :
    handleMessage st d = (st, [WSEvent.errorEvent (d.message.getD "")]) := by
  simp [handleMessage, huid, hw]

theorem wait_forwarded_on_error_channel_witness :
    handleMessage ⟨"u", some "en", false, true, some SockReady.opn⟩
        { status := some "WAIT", message := some "server busy" } =
      (⟨"u", some "en", false, true, some SockReady.opn⟩,
        [WSEvent.errorEvent "server busy"]) :=
  wait_forwarded_on_error_channel _ _ rfl rfl

/-- C4 (counterexample): the claim says a WAIT status is not surfaced
through the error channel used for hard errors; in the code both a WAIT
status and a hard error are emitted as `errorEvent` on the very same
channel, distinguishable only by the message text. -/
theorem wait_shares_error_channel_with_hard_errors :
    (handleMessage ⟨"u", some "en", false, true, some SockReady.opn⟩
        { status := some "WAIT", message := some "server busy" }).2 =
      [WSEvent.errorEvent "server busy"] ∧
    (handleMessage ⟨"u", some "en", false, true, some SockReady.opn⟩
        { status := some "ERROR", message := some "internal failure" }).2 =
      [WSEvent.errorEvent ("Connection failed: " ++ "internal failure")] := by
  constructor
  · rfl
  · decide

/-- C2 (counterexample): a `DISCONNECT` message that is the first message
of the connection does not produce a disconnect event: the server-ready
branch of the guard chain runs first, so the client marks the server
ready and emits `ready` instead. -/
theorem disconnect_first_message_yields_ready :
    handleMessage ⟨"u", some "en", false, true, some SockReady.opn⟩
        { message := some "DISCONNECT" } =
      (⟨"u", some "en", true, false, some SockReady.opn⟩, [WSEvent.ready]) ∧
    WSEvent.disconnect ∉
      (handleMessage ⟨"u", some "en", false, true, some SockReady.opn⟩
        { message := some "DISCONNECT" }).2 := by
  constructor
  · rfl
  · decide

/-- C2 (amended): a `DISCONNECT` message addressed to this client produces
exactly one disconnect event and tears the session down (timer cleared,
socket closed, ready flag dropped) provided the server-ready flag is
already set and the message carries no WAIT status, no hard-error
marker and does not trigger language detection; any other field of the
same message (segments in particular) is ignored.  As the first message
of a connection the same message instead marks the server ready. -/
theorem disconnect_after_ready_tears_down (st : WSClientState) (d : InMsg)
    (huid : uidMismatch st.uuid d = false) (hw : isWaitMsg d = false)
    (he : isErrorMsg d = false) (hr : st.isServerReady = true)
    (hl : langDetect st d = false) (hd : d.message = some "DISCONNECT") :
    handleMessage st d = (closeClient st, [WSEvent.disconnect]) := by
  simp [handleMessage, huid, hw, he, hr, hl, hd]

theorem disconnect_after_ready_tears_down_witness :
    handleMessage ⟨"u", some "en", true, false, some SockReady.opn⟩
        { message := some "DISCONNECT",
          segments := some [{ text := "hi", completed := some (JsonVal.bool false) }] } =
      (closeClient ⟨"u", some "en", true, false, some SockReady.opn⟩,
        [WSEvent.disconnect]) :=
  disconnect_after_ready_tears_down _ _ rfl rfl rfl rfl rfl rfl

/-- C6 (counterexample): a WAIT status message surfaces an error but does
not cancel the pending connection-timeout timer: the WAIT branch returns
before the timer-clearing code, so the timer stays pending on that exit
path. -/
theorem wait_leaves_timer_pending :
    ((handleMessage ⟨"u", some "en", false, true, some SockReady.opn⟩
        { status := some "WAIT", message := some "please wait" }).1).timerPending = true ∧
    (handleMessage ⟨"u", some "en", false, true, some SockReady.opn⟩
        { status := some "WAIT", message := some "please wait" }).2 =
      [WSEvent.errorEvent "please wait"] :=
  ⟨rfl, rfl⟩

/-- C6 (amended): the connection-timeout timer is cancelled when a
hard-error message arrives, when the ready branch runs, on `close()` and
when the timer itself fires; it is NOT cancelled by a WAIT status message
(whose branch leaves the whole client state untouched) nor by the
transport-level `socket.onerror` callback. -/
theorem timer_cancellation_paths :
    (∀ (st : WSClientState) (d : InMsg), uidMismatch st.uuid d = false →
      isWaitMsg d = false → isErrorMsg d = true →
      ((handleMessage st d).1).timerPending = false) ∧
    (∀ (st : WSClientState) (d : InMsg), uidMismatch st.uuid d = false →
      isWaitMsg d = false → isErrorMsg d = false → st.isServerReady = false →
      ((handleMessage st d).1).timerPending = false) ∧
    (∀ st : WSClientState, (closeClient st).timerPending = false) ∧
    (∀ st : WSClientState, ((timerFire st).1).timerPending = false) ∧
    (∀ (st : WSClientState) (d : InMsg), uidMismatch st.uuid d = false →
      isWaitMsg d = true → (handleMessage st d).1 = st) ∧
    (∀ (st : WSClientState) (e : String), (onSocketError st e).1 = st) := by
  refine ⟨?_, ?_, ?_, ?_, ?_, ?_⟩
  · intro st d h1 h2 h3
    simp only [handleMessage, h1, h2, h3, Bool.false_eq_true, if_false, if_true]
    split <;> rfl
  · intro st d h1 h2 h3 h4
    simp [handleMessage, h1, h2, h3, h4]
  · intro st
    rfl
  · intro st
    by_cases h : st.isServerReady = true <;> simp [timerFire, closeClient, h]
  · intro st d h1 h2
    simp [handleMessage, h1, h2]
  · intro st e
    rfl

theorem timer_cancellation_paths_witness :
    ((handleMessage ⟨"u", some "en", false, true, some SockReady.opn⟩
        { status := some "ERROR", status_code := some 401,
          message := some "invalid token" }).1).timerPending = false ∧
    ((handleMessage ⟨"u", some "en", false, true, some SockReady.opn⟩
        { message := some "hello" }).1).timerPending = false ∧
    (closeClient ⟨"u", some "en", true, true, some SockReady.opn⟩).timerPending = false ∧
    ((timerFire ⟨"u", some "en", false, true, some SockReady.opn⟩).1).timerPending = false ∧
    (handleMessage ⟨"u", some "en", false, true, some SockReady.opn⟩
        { status := some "WAIT", message := some "please wait" }).1 =
      ⟨"u", some "en", false, true, some SockReady.opn⟩ :=
  ⟨timer_cancellation_paths.1 _ _ rfl rfl rfl,
    timer_cancellation_paths.2.1 _ _ rfl rfl rfl rfl,
    timer_cancellation_paths.2.2.1 _,
    timer_cancellation_paths.2.2.2.1 _,
    timer_cancellation_paths.2.2.2.2.1 _ _ rfl rfl⟩

theorem strOr_not_empty (a : Option String) (b : String) (hb : b.isEmpty = false) :
    (strOr a b).isEmpty = false := by
  cases a with
  | none => exact hb
  | some s =>
    unfold strOr
    by_cases h : s.isEmpty = true
    · simp [h, hb]
    · simp only [Bool.not_eq_true] at h
      simp [h]

theorem isAuthenticationError_iff (m : String) (d : InMsg) (hm : m.isEmpty = false) :
    isAuthenticationError m d = true ↔
      (authKeywords.any (fun k => containsKeyword (lowerStr m) k) = true ∨
        d.status_code = some 401 ∨ d.status_code = some 403) := by
  unfold isAuthenticationError
  rw [hm]
  simp only [Bool.false_eq_true, if_false]
  by_cases hc : d.status_code = some 401 ∨ d.status_code = some 403
  · simp [hc]
  · simp [hc]

/-- C5: a hard-error message (ERROR status or truthy error field) is
classified as authentication-class exactly when the resolved message text
(`message || error || "Unknown error"`) contains one of the
authentication keywords case-insensitively, or the status code is 401 or
403; the authentication class carries the fixed authentication error
text, every other hard error carries the generic prefixed text.  In both
cases the connection timer is cleared. -/
theorem hard_error_classification (st : WSClientState) (d : InMsg)
    (huid : uidMismatch st.uuid d = false) (hw : isWaitMsg d = false)
    (he : isErrorMsg d = true) :
    handleMessage st d =
      ({ st with timerPending := false },
        [WSEvent.errorEvent
          (if authKeywords.any
                (fun k =>
                  containsKeyword (lowerStr (strOr d.message (strOr d.error "Unknown error"))) k)
                  = true
              ∨ d.status_code = some 401 ∨ d.status_code = some 403
            then authErrorText
            else "Connection failed: " ++ strOr d.message (strOr d.error "Unknown error"))]) := by
  have hm : (strOr d.message (strOr d.error "Unknown error")).isEmpty = false :=
    strOr_not_empty _ _ (strOr_not_empty _ _ rfl)
  have hiff := isAuthenticationError_iff (strOr d.message (strOr d.error "Unknown error")) d hm
  simp only [handleMessage, huid, hw, he, Bool.false_eq_true, if_false, if_true]
  by_cases hc :
      (authKeywords.any
          (fun k =>
            containsKeyword (lowerStr (strOr d.message (strOr d.error "Unknown error"))) k)
            = true
        ∨ d.status_code = some 401 ∨ d.status_code = some 403)
  · rw [if_pos (hiff.mpr hc), if_pos hc]
  · rw [if_neg (fun h => hc (hiff.mp h)), if_neg hc]

theorem hard_error_classification_witness :
    handleMessage ⟨"u", some "en", false, true, some SockReady.opn⟩
        { status := some "ERROR", status_code := some 401, message := some "invalid token" } =
      (⟨"u", some "en", false, false, some SockReady.opn⟩,
        [WSEvent.errorEvent authErrorText]) ∧
    handleMessage ⟨"u", some "en", false, true, some SockReady.opn⟩
        { status := some "ERROR", message := some "internal failure" } =
      (⟨"u", some "en", false, false, some SockReady.opn⟩,
        [WSEvent.errorEvent ("Connection failed: " ++ "internal failure")]) := by
  constructor
  · have h := hard_error_classification ⟨"u", some "en", false, true, some SockReady.opn⟩
      { status := some "ERROR", status_code := some 401, message := some "invalid token" }
      rfl rfl rfl
    rw [if_pos (Or.inr (Or.inl rfl))] at h
    exact h
  · have h := hard_error_classification ⟨"u", some "en", false, true, some SockReady.opn⟩
      { status := some "ERROR", message := some "internal failure" } rfl rfl rfl
    rw [if_neg (by decide)] at h
    exact h

/-! Branch characterizations of `handleMessage`, one per guard. -/

theorem handleMessage_uid_skip (st : WSClientState) (d : InMsg)
    (h1 : uidMismatch st.uuid d = true) :
    handleMessage st d = (st, []) := by
  simp [handleMessage, h1]

theorem handleMessage_wait (st : WSClientState) (d : InMsg)
    (h1 : uidMismatch st.uuid d = false) (h2 : isWaitMsg d = true) :
    handleMessage st d = (st, [WSEvent.errorEvent (d.message.getD "")]) := by
  simp [handleMessage, h1, h2]

theorem handleMessage_error (st : WSClientState) (d : InMsg)
    (h1 : uidMismatch st.uuid d = false) (h2 : isWaitMsg d = false)
    (h3 : isErrorMsg d = true) :
    handleMessage st d =
      ({ st with timerPending := false },
        [WSEvent.errorEvent
          (if isAuthenticationError (strOr d.message (strOr d.error "Unknown error")) d = true
            then authErrorText
            else "Connection failed: " ++ strOr d.message (strOr d.error "Unknown error"))]) := by
  simp only [handleMessage, h1, h2, h3, Bool.false_eq_true, if_false, if_true]
  split <;> rfl

theorem handleMessage_ready (st : WSClientState) (d : InMsg)
    (h1 : uidMismatch st.uuid d = false) (h2 : isWaitMsg d = false)
    (h3 : isErrorMsg d = false) (h4 : st.isServerReady = false) :
    handleMessage st d =
      ({ st with isServerReady := true, timerPending := false }, [WSEvent.ready]) := by
  simp [handleMessage, h1, h2, h3, h4]

theorem handleMessage_lang (st : WSClientState) (d : InMsg)
    (h1 : uidMismatch st.uuid d = false) (h2 : isWaitMsg d = false)
    (h3 : isErrorMsg d = false) (h4 : st.isServerReady = true)
    (h5 : langDetect st d = true) :
    handleMessage st d =
      ({ st with sourceLanguage := d.language },
        [WSEvent.languageDetected (d.language.getD "")]) := by
  simp [handleMessage, h1, h2, h3, h4, h5]

theorem handleMessage_disconnect (st : WSClientState) (d : InMsg)
    (h1 : uidMismatch st.uuid d = false) (h2 : isWaitMsg d = false)
    (h3 : isErrorMsg d = false) (h4 : st.isServerReady = true)
    (h5 : langDetect st d = false) (h6 : d.message = some "DISCONNECT") :
    handleMessage st d = (closeClient st, [WSEvent.disconnect]) := by
  simp [handleMessage, h1, h2, h3, h4, h5, h6]

theorem handleMessage_fallthrough (st : WSClientState) (d : InMsg)
    (h1 : uidMismatch st.uuid d = false) (h2 : isWaitMsg d = false)
    (h3 : isErrorMsg d = false) (h4 : st.isServerReady = true)
    (h5 : langDetect st d = false) (h6 : d.message ≠ some "DISCONNECT") :
    handleMessage st d =
      (st, segmentsEvents d ++ translatedEvents d ++ finalizedEvents d ++
        finalizedTranslatedEvents d ++ audioEvents d ++ [WSEvent.transcription]) := by
  simp [handleMessage, h1, h2, h3, h4, h5, h6]

theorem segments_mem_fallthrough (d : InMsg) (ss : List Segment) :
    WSEvent.segments ss ∈
        (segmentsEvents d ++ translatedEvents d ++ finalizedEvents d ++
          finalizedTranslatedEvents d ++ audioEvents d ++ [WSEvent.transcription]) ↔
      ∃ segs, d.segments = some segs ∧ currentInterim segs ≠ [] ∧
        ss = currentInterim segs := by
  simp only [List.mem_append, mem_segmentsEvents_iff, mem_translatedEvents_iff,
    mem_finalizedEvents_iff, mem_finalizedTranslatedEvents_iff, mem_audioEvents_iff,
    List.mem_singleton]
  constructor
  · rintro (((((h | h) | h) | h) | h) | h)
    · obtain ⟨segs, h1, h2, h3⟩ := h
      injection h3 with h3
      exact ⟨segs, h1, h2, h3⟩
    · obtain ⟨ts, _, h⟩ := h; exact absurd h (by simp)
    · obtain ⟨s, _, h⟩ := h; exact absurd h (by simp)
    · obtain ⟨s, _, h⟩ := h; exact absurd h (by simp)
    · obtain ⟨_, h⟩ := h; exact absurd h (by simp)
    · exact absurd h (by simp)
  · rintro ⟨segs, h1, h2, h3⟩
    exact Or.inl (Or.inl (Or.inl (Or.inl (Or.inl ⟨segs, h1, h2, by rw [h3]⟩))))

/-- C3: for a message carrying a segments list, received once the server
is ready (and not caught by an earlier guard: uid filter, WAIT, hard
error, language detection, DISCONNECT), an interim `segments` event with
content `ss` is emitted exactly when `ss` is the filter of the current
message segments on `completed === false` and that filter is nonempty:
the interim event carries precisely the not-completed segments of the
current message, so nothing from any earlier message accumulates. -/
theorem interim_segments_exact (st : WSClientState) (d : InMsg) (segs : List Segment)
    (huid : uidMismatch st.uuid d = false) (hw : isWaitMsg d = false)
    (he : isErrorMsg d = false) (hr : st.isServerReady = true)
    (hl : langDetect st d = false) (hd : d.message ≠ some "DISCONNECT")
    (hs : d.segments = some segs) :
    ∀ ss : List Segment,
      (WSEvent.segments ss ∈ (handleMessage st d).2 ↔
        (ss = currentInterim segs ∧ currentInterim segs ≠ [])) := by
  intro ss
  have hred : handleMessage st d =
      (st, segmentsEvents d ++ translatedEvents d ++ finalizedEvents d ++
        finalizedTranslatedEvents d ++ audioEvents d ++ [WSEvent.transcription]) := by
    simp [handleMessage, huid, hw, he, hr, hl, hd]
  rw [hred]
  rw [segments_mem_fallthrough]
  constructor
  · rintro ⟨segs2, h1, h2, h3⟩
    rw [hs] at h1
    injection h1 with h1
    subst h1
    exact ⟨h3, h2⟩
  · rintro ⟨h3, h2⟩
    exact ⟨segs, hs, h2, h3⟩

theorem interim_segments_exact_witness :
    WSEvent.segments [{ text := "hi", completed := some (JsonVal.bool false) }] ∈
      (handleMessage ⟨"u", some "en", true, false, some SockReady.opn⟩
        { segments := some [{ text := "hi", completed := some (JsonVal.bool false) },
                            { text := "done", completed := some (JsonVal.bool true) }] }).2 :=
  (interim_segments_exact ⟨"u", some "en", true, false, some SockReady.opn⟩
      { segments := some [{ text := "hi", completed := some (JsonVal.bool false) },
                          { text := "done", completed := some (JsonVal.bool true) }] }
      [{ text := "hi", completed := some (JsonVal.bool false) },
        { text := "done", completed := some (JsonVal.bool true) }]
      rfl rfl rfl rfl rfl (by decide) rfl
      [{ text := "hi", completed := some (JsonVal.bool false) }]).mpr
    ⟨by decide, by decide⟩

/-- C9 (implicit): every emitted interim `segments` event originates in
the segments branch: its content is exactly the filter of the current
message segments on `completed === false` and is nonempty.  Hence a
segment whose completed field is absent or holds any value other than the
boolean false is never part of an interim event, and a message whose
segments all fail the filter produces no interim event at all. -/
theorem interim_event_only_from_current_filter (st : WSClientState) (d : InMsg)
    (ss : List Segment)
    (hmem : WSEvent.segments ss ∈ (handleMessage st d).2) :
    ∃ segs, d.segments = some segs ∧ ss = currentInterim segs ∧ ss ≠ [] ∧
      ∀ s ∈ ss, s.completed = some (JsonVal.bool false) := by
  by_cases h1 : uidMismatch st.uuid d = true
  · rw [handleMessage_uid_skip st d h1] at hmem
    simp at hmem
  replace h1 : uidMismatch st.uuid d = false := by simpa using h1
  by_cases h2 : isWaitMsg d = true
  · rw [handleMessage_wait st d h1 h2] at hmem
    simp at hmem
  replace h2 : isWaitMsg d = false := by simpa using h2
  by_cases h3 : isErrorMsg d = true
  · rw [handleMessage_error st d h1 h2 h3] at hmem
    rcases List.mem_singleton.mp hmem with h
    cases h
  replace h3 : isErrorMsg d = false := by simpa using h3
  by_cases h4 : st.isServerReady = false
  · rw [handleMessage_ready st d h1 h2 h3 h4] at hmem
    simp at hmem
  replace h4 : st.isServerReady = true := by
    cases hb : st.isServerReady
    · exact absurd hb h4
    · rfl
  by_cases h5 : langDetect st d = true
  · rw [handleMessage_lang st d h1 h2 h3 h4 h5] at hmem
    simp at hmem
  replace h5 : langDetect st d = false := by simpa using h5
  by_cases h6 : d.message = some "DISCONNECT"
  · rw [handleMessage_disconnect st d h1 h2 h3 h4 h5 h6] at hmem
    simp at hmem
  rw [handleMessage_fallthrough st d h1 h2 h3 h4 h5 h6] at hmem
  rw [segments_mem_fallthrough] at hmem
  obtain ⟨segs, h1, h2, h3⟩ := hmem
  refine ⟨segs, h1, h3, by rw [h3]; exact h2, ?_⟩
  intro s hsmem
  rw [h3] at hsmem
  unfold currentInterim at hsmem
  have hf := List.mem_filter.mp hsmem
  simpa [beq_iff_eq] using hf.2

theorem interim_event_only_from_current_filter_witness :
    ∃ segs,
      ({ segments := some [{ text := "done", completed := some (JsonVal.bool true) },
                           { text := "hi", completed := some (JsonVal.bool false) },
                           { text := "odd", completed := some (JsonVal.str "false") },
                           { text := "untagged" }] } : InMsg).segments = some segs ∧
      [({ text := "hi", completed := some (JsonVal.bool false) } : Segment)] =
        currentInterim segs ∧
      [({ text := "hi", completed := some (JsonVal.bool false) } : Segment)] ≠ [] ∧
      ∀ s ∈ [({ text := "hi", completed := some (JsonVal.bool false) } : Segment)],
        s.completed = some (JsonVal.bool false) :=
  interim_event_only_from_current_filter
    ⟨"u", some "en", true, false, some SockReady.opn⟩
    { segments := some [{ text := "done", completed := some (JsonVal.bool true) },
                        { text := "hi", completed := some (JsonVal.bool false) },
                        { text := "odd", completed := some (JsonVal.str "false") },
                        { text := "untagged" }] }
    [{ text := "hi", completed := some (JsonVal.bool false) }]
    (by decide)

/-! ## The ready event is emitted exactly once per connection attempt -/

theorem ready_state_step (st : WSClientState) (f : Frame)
    (hr : st.isServerReady = true)
    (hnd : WSEvent.disconnect ∉ (handleFrame st f).2) :
    WSEvent.ready ∉ (handleFrame st f).2 ∧
      ((handleFrame st f).1).isServerReady = true ∧
      ((handleFrame st f).1).uuid = st.uuid := by
  cases f with
  | binary => exact ⟨by simp [handleFrame], by simp [handleFrame, hr], by simp [handleFrame]⟩
  | malformed e =>
    exact ⟨by simp [handleFrame], by simp [handleFrame, hr], by simp [handleFrame]⟩
  | json d =>
    simp only [handleFrame] at hnd ⊢
    by_cases h1 : uidMismatch st.uuid d = true
    · rw [handleMessage_uid_skip st d h1]
      exact ⟨by simp, hr, rfl⟩
    replace h1 : uidMismatch st.uuid d = false := by simpa using h1
    by_cases h2 : isWaitMsg d = true
    · rw [handleMessage_wait st d h1 h2]
      exact ⟨by simp, hr, rfl⟩
    replace h2 : isWaitMsg d = false := by simpa using h2
    by_cases h3 : isErrorMsg d = true
    · rw [handleMessage_error st d h1 h2 h3]
      exact ⟨by simp, hr, rfl⟩
    replace h3 : isErrorMsg d = false := by simpa using h3
    by_cases h5 : langDetect st d = true
    · rw [handleMessage_lang st d h1 h2 h3 hr h5]
      exact ⟨by simp, hr, rfl⟩
    replace h5 : langDetect st d = false := by simpa using h5
    by_cases h6 : d.message = some "DISCONNECT"
    · rw [handleMessage_disconnect st d h1 h2 h3 hr h5 h6] at hnd
      simp at hnd
    rw [handleMessage_fallthrough st d h1 h2 h3 hr h5 h6]
    refine ⟨?_, hr, rfl⟩
    intro hmem
    simp only [List.mem_append, mem_segmentsEvents_iff, mem_translatedEvents_iff,
      mem_finalizedEvents_iff, mem_finalizedTranslatedEvents_iff, mem_audioEvents_iff,
      List.mem_singleton] at hmem
    rcases hmem with (((((⟨_, _, _, h⟩ | ⟨_, _, h⟩) | ⟨_, _, h⟩) | ⟨_, _, h⟩) | ⟨_, h⟩) | h) <;>
      simp at h

theorem not_ready_step (st : WSClientState) (f : Frame) (h0 : st.isServerReady = false) :
    (qualifies st.uuid f = true →
      handleFrame st f =
        ({ st with isServerReady := true, timerPending := false }, [WSEvent.ready])) ∧
    (qualifies st.uuid f = false →
      WSEvent.ready ∉ (handleFrame st f).2 ∧
        ((handleFrame st f).1).isServerReady = false ∧
        ((handleFrame st f).1).uuid = st.uuid) := by
  cases f with
  | binary =>
    exact ⟨fun h => by simp [qualifies] at h,
      fun _ => ⟨by simp [handleFrame], by simp [handleFrame, h0], by simp [handleFrame]⟩⟩
  | malformed e =>
    exact ⟨fun h => by simp [qualifies] at h,
      fun _ => ⟨by simp [handleFrame], by simp [handleFrame, h0], by simp [handleFrame]⟩⟩
  | json d =>
    constructor
    · intro hq
      simp only [qualifies, Bool.and_eq_true, Bool.not_eq_true'] at hq
      obtain ⟨⟨hu, hw⟩, he⟩ := hq
      simpa only [handleFrame] using handleMessage_ready st d hu hw he h0
    · intro hq
      simp only [handleFrame]
      by_cases h1 : uidMismatch st.uuid d = true
      · rw [handleMessage_uid_skip st d h1]
        exact ⟨by simp, h0, rfl⟩
      replace h1 : uidMismatch st.uuid d = false := by simpa using h1
      by_cases h2 : isWaitMsg d = true
      · rw [handleMessage_wait st d h1 h2]
        exact ⟨by simp, h0, rfl⟩
      replace h2 : isWaitMsg d = false := by simpa using h2
      by_cases h3 : isErrorMsg d = true
      · rw [handleMessage_error st d h1 h2 h3]
        exact ⟨by simp, h0, rfl⟩
      replace h3 : isErrorMsg d = false := by simpa using h3
      exfalso
      simp [qualifies, h1, h2, h3] at hq

theorem ready_state_run (st : WSClientState) (fs : List Frame)
    (hr : st.isServerReady = true)
    (hnd : WSEvent.disconnect ∉ (runFrames st fs).2) :
    WSEvent.ready ∉ (runFrames st fs).2 := by
  induction fs generalizing st with
  | nil => simp [runFrames]
  | cons f fs ih =>
    simp only [runFrames] at hnd ⊢
    have hnd1 : WSEvent.disconnect ∉ (handleFrame st f).2 :=
      fun h => hnd (List.mem_append.mpr (Or.inl h))
    have hnd2 : WSEvent.disconnect ∉ (runFrames (handleFrame st f).1 fs).2 :=
      fun h => hnd (List.mem_append.mpr (Or.inr h))
    have hstep := ready_state_step st f hr hnd1
    intro hcon
    rcases List.mem_append.mp hcon with hc | hc
    · exact hstep.1 hc
    · exact ih (handleFrame st f).1 hstep.2.1 hnd2 hc

/-- C7: per connection attempt the ready event is emitted exactly once.
First conjunct: from the not-yet-ready state the handler emits `ready`
exactly on a qualifying frame — the first parsed message that passes the
uid filter and is neither a WAIT status nor a hard error — and that very
frame flips the ready flag.  Second conjunct: over any whole inbound
trace processed from the not-yet-ready state during which no disconnect
teardown happens, the number of ready events is one when some frame
qualifies and zero otherwise — never two. -/
theorem ready_exactly_once_per_attempt :
    (∀ (st : WSClientState) (f : Frame), st.isServerReady = false →
      qualifies st.uuid f = true →
      handleFrame st f =
        ({ st with isServerReady := true, timerPending := false }, [WSEvent.ready])) ∧
    (∀ (st : WSClientState) (fs : List Frame), st.isServerReady = false →
      WSEvent.disconnect ∉ (runFrames st fs).2 →
      List.count WSEvent.ready (runFrames st fs).2 =
        if fs.any (qualifies st.uuid) then 1 else 0) := by
  constructor
  · intro st f h0 hq
    exact (not_ready_step st f h0).1 hq
  · intro st fs
    induction fs generalizing st with
    | nil => intro h0 hnd; simp [runFrames]
    | cons f fs ih =>
      intro h0 hnd
      simp only [runFrames] at hnd ⊢
      have hnd1 : WSEvent.disconnect ∉ (handleFrame st f).2 :=
        fun h => hnd (List.mem_append.mpr (Or.inl h))
      have hnd2 : WSEvent.disconnect ∉ (runFrames (handleFrame st f).1 fs).2 :=
        fun h => hnd (List.mem_append.mpr (Or.inr h))
      by_cases hq : qualifies st.uuid f = true
      · have hstep := (not_ready_step st f h0).1 hq
        rw [hstep] at hnd2 ⊢
        have hnoready :=
          ready_state_run ({ st with isServerReady := true, timerPending := false }) fs rfl hnd2
        rw [List.count_append, List.count_eq_zero.mpr hnoready]
        simp [List.any_cons, hq]
      · replace hq : qualifies st.uuid f = false := by simpa using hq
        have hstep := (not_ready_step st f h0).2 hq
        rw [List.count_append, List.count_eq_zero.mpr hstep.1]
        have hrec := ih (handleFrame st f).1 hstep.2.1 hnd2
        rw [hstep.2.2] at hrec
        rw [hrec]
        simp [List.any_cons, hq]

theorem ready_exactly_once_per_attempt_witness :
    List.count WSEvent.ready
      (runFrames ⟨"u", some "en", false, true, some SockReady.opn⟩
        [Frame.json { message := some "hello" },
          Frame.json
            { segments := some [{ text := "hi", completed := some (JsonVal.bool false) }] }]).2 =
      1 := by
  have h := ready_exactly_once_per_attempt.2
    ⟨"u", some "en", false, true, some SockReady.opn⟩
    [Frame.json { message := some "hello" },
      Frame.json
        { segments := some [{ text := "hi", completed := some (JsonVal.bool false) }] }]
    rfl (by decide)
  rw [h]
  decide
